import Mathlib

/-!
Verification of the SimpleEQ audio-processing core (Source/PluginProcessor.h,
Source/PluginProcessor.cpp) against its natural-language specification.

The C++ code is shallowly embedded: float samples and parameter values become
rationals (ℚ), the template parameters of the C++ code become type parameters,
and the JUCE library primitives the code is built on (juce::AbstractFifo,
juce::dsp::FilterDesign, juce::dsp::IIR) are modelled from their library
semantics where the claims depend on them.
-/

namespace SimpleEQ

/-! ### Fifo (PluginProcessor.h lines 24-84)

`Fifo<T>` holds `std::array<T, 30> buffers` and a `juce::AbstractFifo fifo{30}`.
`juce::AbstractFifo` (modelled from the JUCE library, not part of this
repository) keeps two cursors `validStart`/`validEnd` in `[0, bufferSize)`;
`prepareToWrite(n)` clamps `n` to `freeSpace - 1` (one slot is always kept
free), `prepareToRead(n)` clamps to `numReady`. -/

/-- The `Capacity = 30` constant of `Fifo` (PluginProcessor.h line 81),
which is the `bufferSize` of the embedded `juce::AbstractFifo`. -/
def fifoCapacity : Nat := 30

/-- `Fifo<T>`: the two `AbstractFifo` cursors plus the backing storage.
The `std::array<T, 30>` is modelled as a total function; only indices
below `fifoCapacity` are ever read or written. -/
structure Fifo (T : Type) where
  validStart : Nat
  validEnd : Nat
  buffers : Nat → T

/-- Free space as computed at the top of `AbstractFifo::prepareToWrite`:
`ve >= vs ? bufferSize - (ve - vs) : vs - ve`. -/
def Fifo.freeSpace {T : Type} (f : Fifo T) : Nat :=
  if f.validStart ≤ f.validEnd then fifoCapacity - (f.validEnd - f.validStart)
  else f.validStart - f.validEnd

/-- Items ready for reading, as in `AbstractFifo::getNumReady` /
`prepareToRead`: `ve >= vs ? ve - vs : bufferSize - (vs - ve)`. -/
def Fifo.numReady {T : Type} (f : Fifo T) : Nat :=
  if f.validStart ≤ f.validEnd then f.validEnd - f.validStart
  else fifoCapacity - (f.validStart - f.validEnd)

/-- `Fifo::push` (PluginProcessor.h lines 54-63): `fifo.write(1)` prepares to
write `min(1, freeSpace - 1)` items starting at `validEnd`; if that block is
non-empty the item is stored there, the write cursor advances (mod capacity)
and `true` is returned, otherwise the fifo is untouched and `false` is
returned. -/
def Fifo.push {T : Type} (f : Fifo T) (t : T) : Fifo T × Bool :=
  if 1 ≤ f.freeSpace - 1 then
    ({ validStart := f.validStart,
       validEnd := (f.validEnd + 1) % fifoCapacity,
       buffers := fun i => if i = f.validEnd then t else f.buffers i }, true)
  else (f, false)

/-- `Fifo::pull` (PluginProcessor.h lines 65-74): `fifo.read(1)` prepares to
read `min(1, numReady)` items starting at `validStart`; on success the item at
the read cursor is copied into the out-parameter and the cursor advances,
otherwise the out-parameter keeps its previous value `t` and `false` is
returned.  Result: (new fifo state, value of the out-parameter, return flag). -/
def Fifo.pull {T : Type} (f : Fifo T) (t : T) : Fifo T × T × Bool :=
  if 1 ≤ f.numReady then
    ({ f with validStart := (f.validStart + 1) % fifoCapacity },
     f.buffers f.validStart, true)
  else (f, t, false)

/-- `Fifo::getNumAvailableForReading` (PluginProcessor.h lines 76-79). -/
def Fifo.getNumAvailableForReading {T : Type} (f : Fifo T) : Nat :=
  f.numReady

/-- A freshly prepared fifo: both cursors at 0, every slot holding the
prepared default element (`Fifo::prepare` clears/zeroes each slot). -/
def Fifo.fresh {T : Type} (d : T) : Fifo T :=
  { validStart := 0, validEnd := 0, buffers := fun _ => d }

/-- Push a whole list of items one at a time, collecting each push's
return flag in order. -/
def Fifo.pushAll {T : Type} (f : Fifo T) : List T → Fifo T × List Bool
  | [] => (f, [])
  | x :: xs =>
    let r := f.push x
    let rest := r.1.pushAll xs
    (rest.1, r.2 :: rest.2)

/-- Pull `n` times in a row, each call using `t0` as the initial value of the
out-parameter, collecting the out-parameter values in order. -/
def Fifo.pullN {T : Type} (f : Fifo T) (t0 : T) : Nat → Fifo T × List T
  | 0 => (f, [])
  | n + 1 =>
    let r := f.pull t0
    let rest := r.1.pullN t0 n
    (rest.1, r.2.1 :: rest.2)

/-- Overwrite consecutive slots `k, k+1, ...` of a buffer store with the
elements of a list (the footprint of a run of successful pushes). -/
def writeRun {T : Type} (bufs : Nat → T) (k : Nat) : List T → (Nat → T)
  | [] => bufs
  | x :: xs => writeRun (fun i => if i = k then x else bufs i) (k + 1) xs

lemma writeRun_lt {T : Type} (xs : List T) (k : Nat) (bufs : Nat → T)
    (m : Nat) (hm : m < k) : writeRun bufs k xs m = bufs m := by
  induction xs generalizing k bufs with
  | nil => rfl
  | cons x xs ih =>
    rw [writeRun, ih (k + 1) _ (Nat.lt_succ_of_lt hm)]
    simp [Nat.ne_of_lt hm]

lemma writeRun_get {T : Type} (xs : List T) (j k : Nat) (bufs : Nat → T)
    (h : j < xs.length) : writeRun bufs k xs (k + j) = xs.get ⟨j, h⟩ := by
  induction xs generalizing j k bufs with
  | nil => simp at h
  | cons x xs ih =>
    cases j with
    | zero =>
      have h1 := writeRun_lt xs (k + 1) (fun i => if i = k then x else bufs i)
        k (Nat.lt_succ_self k)
      rw [writeRun]
      simpa using h1
    | succ j =>
      have h2 : k + (j + 1) = (k + 1) + j := by omega
      rw [writeRun, h2, ih j (k + 1) _ (by simpa using h)]
      simp

lemma pushAll_run {T : Type} (xs : List T) (k : Nat) (bufs : Nat → T)
    (h : k + xs.length ≤ fifoCapacity - 1) :
    Fifo.pushAll ⟨0, k, bufs⟩ xs =
      (⟨0, k + xs.length, writeRun bufs k xs⟩, List.replicate xs.length true) := by
  induction xs generalizing k bufs with
  | nil => simp [Fifo.pushAll, writeRun]
  | cons x xs ih =>
    have hk : k ≤ 28 := by
      simp [fifoCapacity] at h; omega
    have hfree : 1 ≤ Fifo.freeSpace ⟨0, k, bufs⟩ - 1 := by
      simp [Fifo.freeSpace, fifoCapacity]; omega
    have hmod : (k + 1) % fifoCapacity = k + 1 :=
      Nat.mod_eq_of_lt (by simp [fifoCapacity]; omega)
    rw [Fifo.pushAll]
    simp only [Fifo.push, hfree, if_pos]
    rw [hmod]
    rw [ih (k + 1) _ (by simp at h ⊢; omega)]
    simp [writeRun, List.replicate]
    omega

lemma pullN_run {T : Type} (c : Nat) (j n : Nat) (bufs : Nat → T) (t0 : T)
    (hjc : j + c ≤ n) (hn : n < fifoCapacity) :
    Fifo.pullN ⟨j, n, bufs⟩ t0 c =
      (⟨j + c, n, bufs⟩, (List.range' j c).map bufs) := by
  induction c generalizing j with
  | zero => simp [Fifo.pullN]
  | succ c ih =>
    have hj : j < n := by omega
    have hready : 1 ≤ Fifo.numReady ⟨j, n, bufs⟩ := by
      simp [Fifo.numReady, Nat.le_of_lt hj]; omega
    have hmod : (j + 1) % fifoCapacity = j + 1 :=
      Nat.mod_eq_of_lt (by omega)
    rw [Fifo.pullN]
    simp only [Fifo.pull, hready, if_pos]
    rw [hmod, ih (j + 1) (by omega)]
    rw [List.range'_succ]
    simp
    omega

lemma range'_map_writeRun {T : Type} (bufs : Nat → T) (xs : List T) :
    (List.range' 0 xs.length).map (writeRun bufs 0 xs) = xs := by
  apply List.ext_get
  · simp
  · intro i h1 h2
    simp only [List.get_eq_getElem, List.getElem_map, List.getElem_range'_1]
    have h3 : i < xs.length := by simpa using h2
    simpa using writeRun_get xs i 0 bufs h3

/-- C7 (amended).  For every list of at most 29 items (`Capacity - 1`: the
embedded `juce::AbstractFifo{30}` always keeps one slot free), pushing the
items one at a time into a freshly prepared `Fifo` succeeds on every push,
and pulling the same number of times succeeds and returns exactly those
items, unchanged, in the order they were pushed. -/
theorem fifo_roundtrip {T : Type} (t0 d : T) (xs : List T)
    (h : xs.length ≤ fifoCapacity - 1) :
    ((Fifo.fresh d).pushAll xs).2 = List.replicate xs.length true ∧
    (((Fifo.fresh d).pushAll xs).1.pullN t0 xs.length).2 = xs := by
  have hp := pushAll_run xs 0 (fun _ => d) (by simpa using h)
  have hfresh : Fifo.fresh d = (⟨0, 0, fun _ => d⟩ : Fifo T) := rfl
  rw [hfresh, hp]
  simp only [Nat.zero_add]
  refine ⟨by trivial, ?_⟩
  have hq := pullN_run xs.length 0 xs.length (writeRun (fun _ => d) 0 xs)
    t0 (by omega) (by simp [fifoCapacity] at h ⊢; omega)
  simp only [Nat.zero_add] at hq
  rw [hq]
  exact range'_map_writeRun _ _

/-- C7 witness: a concrete 3-element round trip through the fifo. -/
theorem fifo_roundtrip_witness :
    ((Fifo.fresh (0 : Nat)).pushAll [4, 5, 6]).2 = List.replicate 3 true ∧
    (((Fifo.fresh (0 : Nat)).pushAll [4, 5, 6]).1.pullN 0 3).2 = [4, 5, 6] :=
  fifo_roundtrip 0 0 [4, 5, 6] (by decide)

set_option maxRecDepth 8192 in
/-- C7 counterexample.  The claim as stated says every push of `N ≤ 30`
items into a fresh fifo succeeds.  Pushing 30 items, the first 29 pushes
succeed and the 30th returns `false`: the `juce::AbstractFifo` write logic
clamps a write to `freeSpace - 1` slots, so a `Fifo` with `Capacity = 30`
holds at most 29 buffered items. -/
theorem fifo_push_thirty_fails :
    ((Fifo.fresh (0 : Nat)).pushAll (List.range 30)).2 =
      List.replicate 29 true ++ [false] := by decide

/-- C8.  `Fifo::push` on a full buffer (no writable slot: `freeSpace ≤ 1`,
the state in which `AbstractFifo::write(1)` hands back an empty block)
returns `false` and leaves the entire fifo — cursors and every buffered
item — unchanged, dropping the new item; `Fifo::pull` on an empty buffer
returns `false`, leaves the fifo unchanged and leaves the caller's
out-parameter at its previous value `t0`.  Both are total functions:
neither blocks nor throws. -/
theorem fifo_full_push_empty_pull {T : Type} (f : Fifo T) (t t0 : T) :
    (f.freeSpace ≤ 1 → f.push t = (f, false)) ∧
    (f.numReady = 0 → f.pull t0 = (f, t0, false)) := by
  constructor
  · intro h
    have h1 : ¬ 1 ≤ f.freeSpace - 1 := by omega
    simp [Fifo.push, h1]
  · intro h
    simp [Fifo.pull, h]

/-- A fifo filled to its usable capacity (29 buffered items). -/
def fullFifoDemo : Fifo Nat := ((Fifo.fresh 0).pushAll (List.range 29)).1

set_option maxRecDepth 8192 in
/-- C8 witness: pushing into the full 29-item fifo fails and changes
nothing; pulling from a fresh (empty) fifo fails and returns the
out-parameter's prior value. -/
theorem fifo_full_push_empty_pull_witness :
    fullFifoDemo.push 99 = (fullFifoDemo, false) ∧
    (Fifo.fresh (0 : Nat)).pull 7 = (Fifo.fresh 0, 7, false) :=
  ⟨(fifo_full_push_empty_pull fullFifoDemo 99 7).1 (by decide),
   (fifo_full_push_empty_pull (Fifo.fresh 0) 99 7).2 (by decide)⟩

/-! ### Slope and the cut-filter cascade (PluginProcessor.h lines 152-279)

`CutFilter = ProcessorChain<Filter × 8>`.  A chain element carries its IIR
coefficients, its delay-line state, and the chain's per-element bypass flag.
The C++ code is templated over the chain and coefficient types; the embedding
is likewise parametric in the coefficient type `α` and the state type `σ`. -/

/-- The `Slope` enum (PluginProcessor.h lines 154-164). -/
inductive Slope where
  | Slope_12
  | Slope_24
  | Slope_36
  | Slope_48
  | Slope_60
  | Slope_72
  | Slope_84
  | Slope_96
deriving DecidableEq

open Slope

/-- The implicit C++ enum value of a `Slope` (0..7). -/
def slopeNat : Slope → Nat
  | Slope_12 => 0
  | Slope_24 => 1
  | Slope_36 => 2
  | Slope_48 => 3
  | Slope_60 => 4
  | Slope_72 => 5
  | Slope_84 => 6
  | Slope_96 => 7

/-- `NUM_FILTER_SLOPES` (PluginProcessor.h line 153). -/
def NUM_FILTER_SLOPES : Nat := 8

/-- One `juce::dsp::IIR::Filter` element of a `ProcessorChain`: the
swappable coefficient set, the recursion's delay-line state, and the
chain's bypass flag for this element. -/
structure Stage (α σ : Type) where
  coefficients : α
  state : σ
  bypassed : Bool

/-- `updateCoefficients` (PluginProcessor.cpp lines 239-242):
`*old = *replacements` writes the replacement coefficient values through
the stage's coefficients pointer.  Nothing else about the stage — in
particular the delay-line state and the bypass flag — is touched. -/
def updateCoefficients {α σ : Type} (old : Stage α σ) (replacements : α) :
    Stage α σ :=
  { old with coefficients := replacements }

/-- `CutFilter`: the 8 `Filter` elements of the cascade, by index. -/
structure CutFilter (α σ : Type) where
  s0 : Stage α σ
  s1 : Stage α σ
  s2 : Stage α σ
  s3 : Stage α σ
  s4 : Stage α σ
  s5 : Stage α σ
  s6 : Stage α σ
  s7 : Stage α σ

/-- Index into the cascade, as `chain.get<Index>()` does. -/
def stageAt {α σ : Type} (c : CutFilter α σ) (i : Fin 8) : Stage α σ :=
  match i with
  | ⟨0, _⟩ => c.s0
  | ⟨1, _⟩ => c.s1
  | ⟨2, _⟩ => c.s2
  | ⟨3, _⟩ => c.s3
  | ⟨4, _⟩ => c.s4
  | ⟨5, _⟩ => c.s5
  | ⟨6, _⟩ => c.s6
  | ⟨7, _⟩ => c.s7
  | ⟨n + 8, h⟩ => absurd h (by omega)

/-- The eight `cutFilter.setBypassed<I>(true)` calls at the top of
`applyCoefficientsToCutFilter` (PluginProcessor.h lines 223-230). -/
def bypassAllStages {α σ : Type} (c : CutFilter α σ) : CutFilter α σ :=
  { s0 := { c.s0 with bypassed := true }
    s1 := { c.s1 with bypassed := true }
    s2 := { c.s2 with bypassed := true }
    s3 := { c.s3 with bypassed := true }
    s4 := { c.s4 with bypassed := true }
    s5 := { c.s5 with bypassed := true }
    s6 := { c.s6 with bypassed := true }
    s7 := { c.s7 with bypassed := true } }

/-- `update<0>` (PluginProcessor.h lines 209-214): replace the coefficient
values of stage 0 with `coefficients[0]` and un-bypass it. -/
def update0 {α σ : Type} (c : CutFilter α σ) (coefficients : Nat → α) :
    CutFilter α σ :=
  { c with s0 := { updateCoefficients c.s0 (coefficients 0) with bypassed := false } }

/-- `update<1>`. -/
def update1 {α σ : Type} (c : CutFilter α σ) (coefficients : Nat → α) :
    CutFilter α σ :=
  { c with s1 := { updateCoefficients c.s1 (coefficients 1) with bypassed := false } }

/-- `update<2>`. -/
def update2 {α σ : Type} (c : CutFilter α σ) (coefficients : Nat → α) :
    CutFilter α σ :=
  { c with s2 := { updateCoefficients c.s2 (coefficients 2) with bypassed := false } }

/-- `update<3>`. -/
def update3 {α σ : Type} (c : CutFilter α σ) (coefficients : Nat → α) :
    CutFilter α σ :=
  { c with s3 := { updateCoefficients c.s3 (coefficients 3) with bypassed := false } }

/-- `update<4>`. -/
def update4 {α σ : Type} (c : CutFilter α σ) (coefficients : Nat → α) :
    CutFilter α σ :=
  { c with s4 := { updateCoefficients c.s4 (coefficients 4) with bypassed := false } }

/-- `update<5>`. -/
def update5 {α σ : Type} (c : CutFilter α σ) (coefficients : Nat → α) :
    CutFilter α σ :=
  { c with s5 := { updateCoefficients c.s5 (coefficients 5) with bypassed := false } }

/-- `update<6>`. -/
def update6 {α σ : Type} (c : CutFilter α σ) (coefficients : Nat → α) :
    CutFilter α σ :=
  { c with s6 := { updateCoefficients c.s6 (coefficients 6) with bypassed := false } }

/-- `update<7>`. -/
def update7 {α σ : Type} (c : CutFilter α σ) (coefficients : Nat → α) :
    CutFilter α σ :=
  { c with s7 := { updateCoefficients c.s7 (coefficients 7) with bypassed := false } }

/-- `applyCoefficientsToCutFilter` (PluginProcessor.h lines 216-270): bypass
all 8 stages; if `isOff`, return; otherwise the `switch (slope)` falls
through from the matching case down to `Slope_12`, so case `Slope_N`
performs `update<slopeNat N>` down to `update<0>` in that order. -/
def applyCoefficientsToCutFilter {α σ : Type} (cutFilter : CutFilter α σ)
    (cutCoefficients : Nat → α) (slope : Slope) (isOff : Bool) :
    CutFilter α σ :=
  let c := bypassAllStages cutFilter
  if isOff then c
  else
    match slope with
    | Slope_12 => update0 c cutCoefficients
    | Slope_24 => update0 (update1 c cutCoefficients) cutCoefficients
    | Slope_36 =>
      update0 (update1 (update2 c cutCoefficients) cutCoefficients)
        cutCoefficients
    | Slope_48 =>
      update0 (update1 (update2 (update3 c cutCoefficients) cutCoefficients)
        cutCoefficients) cutCoefficients
    | Slope_60 =>
      update0 (update1 (update2 (update3 (update4 c cutCoefficients)
        cutCoefficients) cutCoefficients) cutCoefficients) cutCoefficients
    | Slope_72 =>
      update0 (update1 (update2 (update3 (update4 (update5 c cutCoefficients)
        cutCoefficients) cutCoefficients) cutCoefficients) cutCoefficients)
        cutCoefficients
    | Slope_84 =>
      update0 (update1 (update2 (update3 (update4 (update5 (update6 c
        cutCoefficients) cutCoefficients) cutCoefficients) cutCoefficients)
        cutCoefficients) cutCoefficients) cutCoefficients
    | Slope_96 =>
      update0 (update1 (update2 (update3 (update4 (update5 (update6 (update7 c
        cutCoefficients) cutCoefficients) cutCoefficients) cutCoefficients)
        cutCoefficients) cutCoefficients) cutCoefficients) cutCoefficients

/-- 1 if the stage is active (not bypassed), else 0. -/
def stageActiveCount {α σ : Type} (st : Stage α σ) : Nat :=
  if st.bypassed then 0 else 1

/-- How many of the 8 cascade stages are active (not bypassed). -/
def activeStageCount {α σ : Type} (c : CutFilter α σ) : Nat :=
  stageActiveCount c.s0 + stageActiveCount c.s1 + stageActiveCount c.s2 +
    stageActiveCount c.s3 + stageActiveCount c.s4 + stageActiveCount c.s5 +
    stageActiveCount c.s6 + stageActiveCount c.s7

lemma stageAt_applyCoefficients {α σ : Type} (c : CutFilter α σ)
    (coeffs : Nat → α) (s : Slope) (isOff : Bool) (i : Fin 8) :
    stageAt (applyCoefficientsToCutFilter c coeffs s isOff) i =
      if isOff = true then { stageAt c i with bypassed := true }
      else if (i : Nat) ≤ slopeNat s then
        { stageAt c i with coefficients := coeffs i, bypassed := false }
      else { stageAt c i with bypassed := true } := by
  cases isOff <;> cases s <;> fin_cases i <;>
    simp [applyCoefficientsToCutFilter, bypassAllStages, update0, update1,
      update2, update3, update4, update5, update6, update7,
      updateCoefficients, stageAt, slopeNat]

/-- C1 (amended).  For every slope index `s` (0..7), after
`applyCoefficientsToCutFilter(cutFilter, coeffs, slope, isOff = false)`
exactly `s + 1` of the 8 cascade stages are active, and the active ones
are exactly the contiguous lowest-index stages `0..s`; all remaining
stages are bypassed.  (The cascade realises filter order `2*(s+1)` with
one second-order section per active stage, not `2*(s+1)` active stages.) -/
theorem applyCoefficients_active_set {α σ : Type} (c : CutFilter α σ)
    (coeffs : Nat → α) (s : Slope) :
    (∀ i : Fin 8,
      (stageAt (applyCoefficientsToCutFilter c coeffs s false) i).bypassed = false ↔
        (i : Nat) ≤ slopeNat s) ∧
    activeStageCount (applyCoefficientsToCutFilter c coeffs s false) =
      slopeNat s + 1 := by
  constructor
  · intro i
    rw [stageAt_applyCoefficients]
    by_cases h : (i : Nat) ≤ slopeNat s <;> simp [h]
  · cases s <;>
      simp [activeStageCount, stageActiveCount, applyCoefficientsToCutFilter,
        bypassAllStages, update0, update1, update2, update3, update4, update5,
        update6, update7, updateCoefficients, slopeNat]

/-- A concrete active stage used in counterexamples. -/
def demoStageN : Stage Nat Unit :=
  { coefficients := 0, state := (), bypassed := false }

/-- A concrete cascade used in counterexamples. -/
def demoCutN : CutFilter Nat Unit :=
  ⟨demoStageN, demoStageN, demoStageN, demoStageN,
   demoStageN, demoStageN, demoStageN, demoStageN⟩

/-- C1 counterexample.  At slope index 0 (`Slope_12`) with `isOff = false`
the cascade has exactly 1 active stage — stage 1 in particular is bypassed —
while the claim as stated predicts `2*(0+1) = 2` active stages (stages 0..1). -/
theorem applyCoefficients_slope12_one_stage :
    activeStageCount (applyCoefficientsToCutFilter demoCutN (fun i => i)
        Slope_12 false) = 1 ∧
    (applyCoefficientsToCutFilter demoCutN (fun i => i) Slope_12
        false).s1.bypassed = true ∧
    (1 : Nat) ≠ 2 * (slopeNat Slope_12 + 1) := by
  decide

/-! ### Coefficient designer (PluginProcessor.h lines 196-202, 272-279)

`makeCutFilter(cutFreq, sampleRate, slope, filterDesignMethod)` calls the
design method with filter order `2 * (slope + 1)`.  The design methods are
`juce::dsp::FilterDesign<float>::designIIRHighpassHighOrderButterworthMethod`
and `...LowpassHighOrder...`, modelled here from the JUCE library (not part
of this repository): an order-`n` Butterworth design is returned as a
cascade of `⌈n/2⌉` coefficient sets — `n/2` second-order sections, preceded
by one first-order section when `n` is odd.  The numeric coefficient values
(trigonometric functions of the normalised cutoff) are abstracted: each
returned set records the design parameters, its own order and its position
in the cascade. -/

/-- High-pass (low-cut) vs low-pass (high-cut) Butterworth design. -/
inductive FilterKind where
  | highpass
  | lowpass
deriving DecidableEq

/-- One coefficient set of a designed Butterworth cascade. -/
structure DesignedSection where
  kind : FilterKind
  freq : ℚ
  sampleRate : ℚ
  sectionOrder : Nat
  sectionIndex : Nat
deriving DecidableEq

/-- The section list of an order-`order` Butterworth design of the given
kind (see the section comment above). -/
def butterworthSections (kind : FilterKind) (freq sampleRate : ℚ)
    (order : Nat) : List DesignedSection :=
  (if order % 2 = 1 then
    [{ kind := kind, freq := freq, sampleRate := sampleRate,
       sectionOrder := 1, sectionIndex := 0 }]
   else []) ++
  (List.range (order / 2)).map (fun k =>
    { kind := kind, freq := freq, sampleRate := sampleRate,
      sectionOrder := 2, sectionIndex := k })

/-- `lowCutButterworthMethod` (PluginProcessor.h lines 198-199). -/
def lowCutButterworthMethod (freq : ℚ) (sampleRate : ℚ) (order : Nat) :
    List DesignedSection :=
  butterworthSections FilterKind.highpass freq sampleRate order

/-- `highCutButterworthMethod` (PluginProcessor.h lines 201-202). -/
def highCutButterworthMethod (freq : ℚ) (sampleRate : ℚ) (order : Nat) :
    List DesignedSection :=
  butterworthSections FilterKind.lowpass freq sampleRate order

/-- `makeCutFilter` (PluginProcessor.h lines 272-279): invoke the design
method at filter order `2 * (slope + 1)`. -/
def makeCutFilter (cutFreq : ℚ) (sampleRate : ℚ) (slope : Slope)
    (filterDesignMethod : ℚ → ℚ → Nat → List DesignedSection) :
    List DesignedSection :=
  filterDesignMethod cutFreq sampleRate (2 * (slopeNat slope + 1))

lemma butterworthSections_even (kind : FilterKind) (freq sampleRate : ℚ)
    (n : Nat) :
    butterworthSections kind freq sampleRate (2 * n) =
      (List.range n).map (fun k =>
        { kind := kind, freq := freq, sampleRate := sampleRate,
          sectionOrder := 2, sectionIndex := k }) := by
  have h1 : (2 * n) % 2 = 0 := Nat.mul_mod_right 2 n
  have h2 : 2 * n / 2 = n := by omega
  simp [butterworthSections, h1, h2]

/-- C2 (amended).  For every slope index `s` (0..7) and both Butterworth
design methods, `makeCutFilter` returns exactly `s + 1` coefficient sets —
not 8 — each one a second-order section, and the combined order of the
designed cascade (the sum of the section orders) is `2*(s+1)`. -/
theorem makeCutFilter_cascade (freq sampleRate : ℚ) (s : Slope)
    (method : ℚ → ℚ → Nat → List DesignedSection)
    (hm : method = lowCutButterworthMethod ∨
          method = highCutButterworthMethod) :
    (makeCutFilter freq sampleRate s method).length = slopeNat s + 1 ∧
    (∀ sec ∈ makeCutFilter freq sampleRate s method, sec.sectionOrder = 2) ∧
    ((makeCutFilter freq sampleRate s method).map
        DesignedSection.sectionOrder).sum = 2 * (slopeNat s + 1) := by
  have hsum : ∀ n : Nat, ((List.range n).map (fun _ => (2 : Nat))).sum = 2 * n := by
    intro n
    induction n with
    | zero => rfl
    | succ n ih =>
      rw [List.range_succ, List.map_append, List.sum_append, ih]
      simp
      omega
  have main : ∀ kind,
      (butterworthSections kind freq sampleRate (2 * (slopeNat s + 1))).length
          = slopeNat s + 1 ∧
      (∀ sec ∈ butterworthSections kind freq sampleRate (2 * (slopeNat s + 1)),
          sec.sectionOrder = 2) ∧
      ((butterworthSections kind freq sampleRate (2 * (slopeNat s + 1))).map
          DesignedSection.sectionOrder).sum = 2 * (slopeNat s + 1) := by
    intro kind
    rw [butterworthSections_even]
    refine ⟨by simp, by simp, ?_⟩
    rw [List.map_map]
    exact hsum (slopeNat s + 1)
  rcases hm with hm | hm <;> subst hm
  · exact main FilterKind.highpass
  · exact main FilterKind.lowpass

/-- C2 witness: at slope index 2 (`Slope_36`) the high-pass design returns
3 second-order sections of combined order 6. -/
theorem makeCutFilter_cascade_witness :
    (makeCutFilter 100 48000 Slope_36 lowCutButterworthMethod).length =
        slopeNat Slope_36 + 1 ∧
    (∀ sec ∈ makeCutFilter 100 48000 Slope_36 lowCutButterworthMethod,
        sec.sectionOrder = 2) ∧
    ((makeCutFilter 100 48000 Slope_36 lowCutButterworthMethod).map
        DesignedSection.sectionOrder).sum = 2 * (slopeNat Slope_36 + 1) :=
  makeCutFilter_cascade 100 48000 Slope_36 lowCutButterworthMethod (Or.inl rfl)

/-- C2 counterexample.  At slope index 0 (`Slope_12`) the designed array
has exactly 1 coefficient set, not 8: the returned cascade length depends
on the slope. -/
theorem makeCutFilter_slope12_length_one :
    (makeCutFilter 100 48000 Slope_12 lowCutButterworthMethod).length = 1 ∧
    (1 : Nat) ≠ 8 := by
  decide

/-! ### MonoChain, ChainSettings and updateFilters
(PluginProcessor.h lines 166-194, PluginProcessor.cpp lines 239-393)

`MonoChain = ProcessorChain<CutFilter, Filter, Filter, Filter, Filter,
Filter, CutFilter>`.  The numeric coefficient values produced by
`makePeakFilter` and by the two Butterworth design methods involve
trigonometric functions of the cutoff frequency, so they are kept as
parameters of the embedding (a `DesignModel`), together with the per-sample
recursion `step` of `juce::dsp::IIR::Filter` (instantiated concretely as
`biquadStep` below); everything the claims depend on — which stages get
which coefficient set, bypass flags, ordering of updates and processing —
is modelled exactly. -/

/-- `juce::Range<float>` with `start`/`end`; written over ℚ. -/
structure FloatRange where
  start : ℚ
  stop : ℚ

/-- `juce::Range::contains(v)`: `start <= v && v < end`. -/
def FloatRange.containsV (r : FloatRange) (v : ℚ) : Bool :=
  decide (r.start ≤ v) && decide (v < r.stop)

/-- `low_cut_off_range = juce::Range<float>(0, 6)` (PluginProcessor.h line 20). -/
def low_cut_off_range : FloatRange := ⟨0, 6⟩

/-- `high_cut_off_range = juce::Range<float>(21500, 22001)` (PluginProcessor.h line 21). -/
def high_cut_off_range : FloatRange := ⟨21500, 22001⟩

/-- `ChainSettings` (PluginProcessor.h lines 166-175), with the C++ member
initialisers as default field values. -/
structure ChainSettings where
  peak1Freq : ℚ := 0
  peak1GainInDecibels : ℚ := 0
  peak1Quality : ℚ := 1
  peak2Freq : ℚ := 0
  peak2GainInDecibels : ℚ := 0
  peak2Quality : ℚ := 1
  peak3Freq : ℚ := 0
  peak3GainInDecibels : ℚ := 0
  peak3Quality : ℚ := 1
  peak4Freq : ℚ := 0
  peak4GainInDecibels : ℚ := 0
  peak4Quality : ℚ := 1
  peak5Freq : ℚ := 0
  peak5GainInDecibels : ℚ := 0
  peak5Quality : ℚ := 1
  lowCutFreq : ℚ := 0
  highCutFreq : ℚ := 0
  lowCutSlope : Slope := Slope_12
  highCutSlope : Slope := Slope_12

/-- `MonoChain` with its `ChainPositions`: LowCut, Peak1..Peak5, HighCut. -/
structure MonoChain (α σ : Type) where
  lowCut : CutFilter α σ
  peak1 : Stage α σ
  peak2 : Stage α σ
  peak3 : Stage α σ
  peak4 : Stage α σ
  peak5 : Stage α σ
  highCut : CutFilter α σ

/-- The numeric designers, abstracted.  `lowCutDesign`/`highCutDesign`
model `lowCutButterworthMethod`/`highCutButterworthMethod` together with
`ReferenceCountedArray` indexing (an array of coefficient sets becomes
`Nat → α`); `makePeakFilter` models the function of the same name
(PluginProcessor.cpp lines 244-251, argument order freq, Q, gainDb,
sampleRate); `sampleRate` models `getSampleRate()`. -/
structure DesignModel (α : Type) where
  sampleRate : ℚ
  lowCutDesign : ℚ → ℚ → Nat → (Nat → α)
  highCutDesign : ℚ → ℚ → Nat → (Nat → α)
  makePeakFilter : ℚ → ℚ → ℚ → ℚ → α

/-- `makeCutFilter` as used with a parametric design method returning an
indexable coefficient array. -/
def makeCutFilterWith {α : Type} (cutFreq sampleRate : ℚ) (slope : Slope)
    (filterDesignMethod : ℚ → ℚ → Nat → (Nat → α)) : Nat → α :=
  filterDesignMethod cutFreq sampleRate (2 * (slopeNat slope + 1))

/-- `updateCutFilter<ChainPositions::LowCut>` (PluginProcessor.cpp lines
380-393): design once, then apply the same coefficients to the left and
the right chain's low-cut cascade. -/
def updateCutFilterLowCut {α σ : Type} (dm : DesignModel α) (cutFreq : ℚ)
    (slope : Slope) (filterDesignMethod : ℚ → ℚ → Nat → (Nat → α))
    (isOff : Bool) (leftChain rightChain : MonoChain α σ) :
    MonoChain α σ × MonoChain α σ :=
  let cutCoefficients := makeCutFilterWith cutFreq dm.sampleRate slope
    filterDesignMethod
  ({ leftChain with lowCut := (applyCoefficientsToCutFilter leftChain.lowCut
       cutCoefficients slope isOff) },
   { rightChain with lowCut := (applyCoefficientsToCutFilter rightChain.lowCut
       cutCoefficients slope isOff) })

/-- `updateCutFilter<ChainPositions::HighCut>`. -/
def updateCutFilterHighCut {α σ : Type} (dm : DesignModel α) (cutFreq : ℚ)
    (slope : Slope) (filterDesignMethod : ℚ → ℚ → Nat → (Nat → α))
    (isOff : Bool) (leftChain rightChain : MonoChain α σ) :
    MonoChain α σ × MonoChain α σ :=
  let cutCoefficients := makeCutFilterWith cutFreq dm.sampleRate slope
    filterDesignMethod
  ({ leftChain with highCut := (applyCoefficientsToCutFilter leftChain.highCut
       cutCoefficients slope isOff) },
   { rightChain with highCut := (applyCoefficientsToCutFilter rightChain.highCut
       cutCoefficients slope isOff) })

/-- `updatePeakFilter` (PluginProcessor.cpp lines 253-297): design the five
peak coefficient sets once each, then `updateCoefficients` the Peak1..Peak5
stages of the left and the right chain with the same values. -/
def updatePeakFilter {α σ : Type} (dm : DesignModel α)
    (chainSettings : ChainSettings) (leftChain rightChain : MonoChain α σ) :
    MonoChain α σ × MonoChain α σ :=
  let peak1Coefficients := dm.makePeakFilter chainSettings.peak1Freq
    chainSettings.peak1Quality chainSettings.peak1GainInDecibels dm.sampleRate
  let peak2Coefficients := dm.makePeakFilter chainSettings.peak2Freq
    chainSettings.peak2Quality chainSettings.peak2GainInDecibels dm.sampleRate
  let peak3Coefficients := dm.makePeakFilter chainSettings.peak3Freq
    chainSettings.peak3Quality chainSettings.peak3GainInDecibels dm.sampleRate
  let peak4Coefficients := dm.makePeakFilter chainSettings.peak4Freq
    chainSettings.peak4Quality chainSettings.peak4GainInDecibels dm.sampleRate
  let peak5Coefficients := dm.makePeakFilter chainSettings.peak5Freq
    chainSettings.peak5Quality chainSettings.peak5GainInDecibels dm.sampleRate
  ({ leftChain with
      peak1 := updateCoefficients leftChain.peak1 peak1Coefficients
      peak2 := updateCoefficients leftChain.peak2 peak2Coefficients
      peak3 := updateCoefficients leftChain.peak3 peak3Coefficients
      peak4 := updateCoefficients leftChain.peak4 peak4Coefficients
      peak5 := updateCoefficients leftChain.peak5 peak5Coefficients },
   { rightChain with
      peak1 := updateCoefficients rightChain.peak1 peak1Coefficients
      peak2 := updateCoefficients rightChain.peak2 peak2Coefficients
      peak3 := updateCoefficients rightChain.peak3 peak3Coefficients
      peak4 := updateCoefficients rightChain.peak4 peak4Coefficients
      peak5 := updateCoefficients rightChain.peak5 peak5Coefficients })

/-- `updateFilters` (PluginProcessor.cpp lines 348-378): low-cut update
(off when the frequency lies in `low_cut_off_range`), then the peak
updates, then the high-cut update (off when the frequency lies in
`high_cut_off_range`), on both chains. -/
def updateFilters {α σ : Type} (dm : DesignModel α)
    (chainSettings : ChainSettings) (leftChain rightChain : MonoChain α σ) :
    MonoChain α σ × MonoChain α σ :=
  let isOff1 := low_cut_off_range.containsV chainSettings.lowCutFreq
  let p1 := updateCutFilterLowCut dm chainSettings.lowCutFreq
    chainSettings.lowCutSlope dm.lowCutDesign isOff1 leftChain rightChain
  let p2 := updatePeakFilter dm chainSettings p1.1 p1.2
  let isOff2 := high_cut_off_range.containsV chainSettings.highCutFreq
  updateCutFilterHighCut dm chainSettings.highCutFreq
    chainSettings.highCutSlope dm.highCutDesign isOff2 p2.1 p2.2

/-! ### Block processing -/

/-- Run the per-sample recursion over a block, threading the filter state
(`juce::dsp::IIR::Filter::process` over a block). -/
def processSamples {α σ : Type} (step : α → σ → ℚ → ℚ × σ) (c : α) :
    σ → List ℚ → List ℚ × σ
  | st, [] => ([], st)
  | st, x :: xs =>
    let r := step c st x
    let rest := processSamples step c r.2 xs
    (r.1 :: rest.1, rest.2)

/-- One `ProcessorChain` element processing a block: a bypassed element
passes the block through untouched (state kept); an active one runs the
recursion. -/
def stageProcessBlock {α σ : Type} (step : α → σ → ℚ → ℚ × σ)
    (s : Stage α σ) (xs : List ℚ) : List ℚ × Stage α σ :=
  if s.bypassed then (xs, s)
  else
    let r := processSamples step s.coefficients s.state xs
    (r.1, { s with state := r.2 })

/-- The cut cascade processing a block: stages 0..7 in series. -/
def cutFilterProcessBlock {α σ : Type} (step : α → σ → ℚ → ℚ × σ)
    (c : CutFilter α σ) (xs : List ℚ) : List ℚ × CutFilter α σ :=
  let r0 := stageProcessBlock step c.s0 xs
  let r1 := stageProcessBlock step c.s1 r0.1
  let r2 := stageProcessBlock step c.s2 r1.1
  let r3 := stageProcessBlock step c.s3 r2.1
  let r4 := stageProcessBlock step c.s4 r3.1
  let r5 := stageProcessBlock step c.s5 r4.1
  let r6 := stageProcessBlock step c.s6 r5.1
  let r7 := stageProcessBlock step c.s7 r6.1
  (r7.1, ⟨r0.2, r1.2, r2.2, r3.2, r4.2, r5.2, r6.2, r7.2⟩)

/-- `MonoChain::process`: low-cut cascade, the five peak stages, high-cut
cascade, strictly in that order, in place. -/
def monoChainProcessBlock {α σ : Type} (step : α → σ → ℚ → ℚ × σ)
    (m : MonoChain α σ) (xs : List ℚ) : List ℚ × MonoChain α σ :=
  let rLow := cutFilterProcessBlock step m.lowCut xs
  let rp1 := stageProcessBlock step m.peak1 rLow.1
  let rp2 := stageProcessBlock step m.peak2 rp1.1
  let rp3 := stageProcessBlock step m.peak3 rp2.1
  let rp4 := stageProcessBlock step m.peak4 rp3.1
  let rp5 := stageProcessBlock step m.peak5 rp4.1
  let rHigh := cutFilterProcessBlock step m.highCut rp5.1
  (rHigh.1,
   { lowCut := rLow.2, peak1 := rp1.2, peak2 := rp2.2, peak3 := rp3.2,
     peak4 := rp4.2, peak5 := rp5.2, highCut := rHigh.2 })

/-- All 8 cascade stages bypassed. -/
def allBypassed {α σ : Type} (c : CutFilter α σ) : Prop :=
  c.s0.bypassed = true ∧ c.s1.bypassed = true ∧ c.s2.bypassed = true ∧
    c.s3.bypassed = true ∧ c.s4.bypassed = true ∧ c.s5.bypassed = true ∧
    c.s6.bypassed = true ∧ c.s7.bypassed = true

lemma allBypassed_bypassAllStages {α σ : Type} (c : CutFilter α σ) :
    allBypassed (bypassAllStages c) := by
  simp [allBypassed, bypassAllStages]

lemma cutFilterProcessBlock_allBypassed {α σ : Type}
    (step : α → σ → ℚ → ℚ × σ) (c : CutFilter α σ) (xs : List ℚ)
    (h : allBypassed c) : cutFilterProcessBlock step c xs = (xs, c) := by
  obtain ⟨h0, h1, h2, h3, h4, h5, h6, h7⟩ := h
  simp [cutFilterProcessBlock, stageProcessBlock, h0, h1, h2, h3, h4, h5,
    h6, h7]

/-! ### SingleChannelSampleFifo (PluginProcessor.h lines 86-150) -/

/-- The `Channel` enum (PluginProcessor.h lines 86-90), in declaration
order: `Right` first, then `Left`. -/
inductive Channel where
  | Right
  | Left
deriving DecidableEq

/-- The implicit C++ enum value of a `Channel`: `Right = 0`, `Left = 1`. -/
def channelIndex : Channel → Nat
  | Channel.Right => 0
  | Channel.Left => 1

/-- `SingleChannelSampleFifo<AudioBuffer<float>>` after `prepare`: the
selected channel, the write cursor `fifoIndex`, the internal
`Fifo<AudioBuffer<float>>`, and the accumulation buffer `bufferToFill`
(a single-channel audio buffer, modelled as its sample list). -/
structure SingleChannelSampleFifo where
  channelToUse : Channel
  fifoIndex : Nat
  audioBufferFifo : Fifo (List ℚ)
  bufferToFill : List ℚ

/-- `pushNextSampleIntoFifo` (PluginProcessor.h lines 137-149): if the
write cursor has reached the accumulation buffer's size, push the filled
buffer into the fifo (the push's return flag is ignored) and reset the
cursor to 0; then store the sample at the cursor and advance it. -/
def pushNextSampleIntoFifo (s : SingleChannelSampleFifo) (sample : ℚ) :
    SingleChannelSampleFifo :=
  let s1 :=
    if s.fifoIndex = s.bufferToFill.length then
      { s with audioBufferFifo := (s.audioBufferFifo.push s.bufferToFill).1,
               fifoIndex := 0 }
    else s
  { s1 with bufferToFill := s1.bufferToFill.set s1.fifoIndex sample,
            fifoIndex := s1.fifoIndex + 1 }

/-- The loop body of `SingleChannelSampleFifo::update` (PluginProcessor.h
lines 100-110) applied to an already-extracted channel sample stream:
every sample is pushed one at a time, in order. -/
def scUpdate (s : SingleChannelSampleFifo) (samples : List ℚ) :
    SingleChannelSampleFifo :=
  samples.foldl pushNextSampleIntoFifo s

/-- `SingleChannelSampleFifo::update(buffer)` on a multi-channel buffer
(a list of per-channel sample lists): read the channel selected by
`channelToUse` via `buffer.getReadPointer(channelToUse)` and push each of
its samples. -/
def scUpdateBuffer (s : SingleChannelSampleFifo) (buffer : List (List ℚ)) :
    SingleChannelSampleFifo :=
  scUpdate s (buffer.getD (channelIndex s.channelToUse) [])

/-- `SingleChannelSampleFifo::prepare(bufferSize)` (PluginProcessor.h lines
112-122): size and zero the accumulation buffer, prepare the internal fifo
(each slot a zeroed single-channel buffer) and reset the write cursor. -/
def scPrepare (ch : Channel) (bufferSize : Nat) : SingleChannelSampleFifo :=
  { channelToUse := ch, fifoIndex := 0,
    audioBufferFifo := Fifo.fresh (List.replicate bufferSize 0),
    bufferToFill := List.replicate bufferSize 0 }

/-- `getNumCompleteBuffersAvailable` (PluginProcessor.h line 124). -/
def getNumCompleteBuffersAvailable (s : SingleChannelSampleFifo) : Nat :=
  s.audioBufferFifo.numReady

/-- `getAudioBuffer` (PluginProcessor.h line 128): pull one complete
buffer from the internal fifo into the out-parameter. -/
def getAudioBuffer (s : SingleChannelSampleFifo) (buffer : List ℚ) :
    Fifo (List ℚ) × List ℚ × Bool :=
  s.audioBufferFifo.pull buffer

/-! ### processBlock (PluginProcessor.cpp lines 181-213)

The audio-relevant body of `SimpleEQAudioProcessor::processBlock`, in
source order: `updateFilters()`; split the buffer into channel 0
(processed in place by `leftChain`) and channel 1 (processed in place by
`rightChain`); then `leftChannelFifo.update(buffer)` and
`rightChannelFifo.update(buffer)` on the (already processed) buffer.
`getChainSettings(apvts)` — the per-block parameter snapshot — is the
`chainSettings` argument. -/

/-- The processor state processBlock acts on. -/
structure ProcessorState (α σ : Type) where
  leftChain : MonoChain α σ
  rightChain : MonoChain α σ
  leftChannelFifo : SingleChannelSampleFifo
  rightChannelFifo : SingleChannelSampleFifo

/-- The result of one processBlock call: the new processor state and the
buffer contents after in-place processing (`out0` = channel 0, `out1` =
channel 1). -/
structure BlockResult (α σ : Type) where
  state : ProcessorState α σ
  out0 : List ℚ
  out1 : List ℚ

/-- `processBlock` (PluginProcessor.cpp lines 181-213). -/
def processBlock {α σ : Type} (dm : DesignModel α)
    (step : α → σ → ℚ → ℚ × σ) (chainSettings : ChainSettings)
    (st : ProcessorState α σ) (ch0 ch1 : List ℚ) : BlockResult α σ :=
  let chains := updateFilters dm chainSettings st.leftChain st.rightChain
  let lRes := monoChainProcessBlock step chains.1 ch0
  let rRes := monoChainProcessBlock step chains.2 ch1
  let buffer := [lRes.1, rRes.1]
  { state :=
      { leftChain := lRes.2, rightChain := rRes.2,
        leftChannelFifo := scUpdateBuffer st.leftChannelFifo buffer,
        rightChannelFifo := scUpdateBuffer st.rightChannelFifo buffer },
    out0 := lRes.1, out1 := rRes.1 }

/-- `juce::dsp::IIR::Coefficients<float>` of one second-order section,
normalised: b0, b1, b2, a1, a2 (a0 divided out), over ℚ. -/
structure IIRCoefficients where
  b0 : ℚ
  b1 : ℚ
  b2 : ℚ
  a1 : ℚ
  a2 : ℚ
deriving DecidableEq

/-- The two delay-line samples of a second-order section. -/
structure DelayState where
  v1 : ℚ
  v2 : ℚ
deriving DecidableEq

/-- `juce::dsp::IIR::Filter::processSample` (direct form II transposed):
`y = b0*x + v1; v1 = b1*x - a1*y + v2; v2 = b2*x - a2*y`.  This is the
concrete instance of the `step` parameter used by the audio path. -/
def biquadStep (c : IIRCoefficients) (s : DelayState) (x : ℚ) :
    ℚ × DelayState :=
  let y := c.b0 * x + s.v1
  (y, { v1 := c.b1 * x - c.a1 * y + s.v2, v2 := c.b2 * x - c.a2 * y })

/-! ### Claims C3, C5, C6 -/

lemma applyCoefficients_isOff {α σ : Type} (c : CutFilter α σ)
    (coeffs : Nat → α) (s : Slope) :
    applyCoefficientsToCutFilter c coeffs s true = bypassAllStages c := rfl

lemma updateFilters_lowCut_eq {α σ : Type} (dm : DesignModel α)
    (cs : ChainSettings) (l r : MonoChain α σ) :
    (updateFilters dm cs l r).1.lowCut =
      applyCoefficientsToCutFilter l.lowCut
        (makeCutFilterWith cs.lowCutFreq dm.sampleRate cs.lowCutSlope
          dm.lowCutDesign)
        cs.lowCutSlope (low_cut_off_range.containsV cs.lowCutFreq) ∧
    (updateFilters dm cs l r).2.lowCut =
      applyCoefficientsToCutFilter r.lowCut
        (makeCutFilterWith cs.lowCutFreq dm.sampleRate cs.lowCutSlope
          dm.lowCutDesign)
        cs.lowCutSlope (low_cut_off_range.containsV cs.lowCutFreq) :=
  ⟨rfl, rfl⟩

lemma updateFilters_highCut_eq {α σ : Type} (dm : DesignModel α)
    (cs : ChainSettings) (l r : MonoChain α σ) :
    (updateFilters dm cs l r).1.highCut =
      applyCoefficientsToCutFilter l.highCut
        (makeCutFilterWith cs.highCutFreq dm.sampleRate cs.highCutSlope
          dm.highCutDesign)
        cs.highCutSlope (high_cut_off_range.containsV cs.highCutFreq) ∧
    (updateFilters dm cs l r).2.highCut =
      applyCoefficientsToCutFilter r.highCut
        (makeCutFilterWith cs.highCutFreq dm.sampleRate cs.highCutSlope
          dm.highCutDesign)
        cs.highCutSlope (high_cut_off_range.containsV cs.highCutFreq) :=
  ⟨rfl, rfl⟩

/-- C3.  If the low-cut frequency lies in the configured low-cut off
sub-range `[0, 6)`, `updateFilters` leaves all 8 stages of the low-cut
cascade bypassed on both chains, so for any per-sample recursion the
cascade maps every input block to itself (unity gain), regardless of the
selected slope; symmetrically, a high-cut frequency inside
`[21500, 22001)` fully bypasses the high-cut cascade. -/
theorem updateFilters_offRange_bypass {α σ : Type} (dm : DesignModel α)
    (step : α → σ → ℚ → ℚ × σ) (cs : ChainSettings) (l r : MonoChain α σ)
    (xs : List ℚ) :
    (low_cut_off_range.containsV cs.lowCutFreq = true →
      allBypassed (updateFilters dm cs l r).1.lowCut ∧
      allBypassed (updateFilters dm cs l r).2.lowCut ∧
      (cutFilterProcessBlock step (updateFilters dm cs l r).1.lowCut xs).1 = xs ∧
      (cutFilterProcessBlock step (updateFilters dm cs l r).2.lowCut xs).1 = xs) ∧
    (high_cut_off_range.containsV cs.highCutFreq = true →
      allBypassed (updateFilters dm cs l r).1.highCut ∧
      allBypassed (updateFilters dm cs l r).2.highCut ∧
      (cutFilterProcessBlock step (updateFilters dm cs l r).1.highCut xs).1 = xs ∧
      (cutFilterProcessBlock step (updateFilters dm cs l r).2.highCut xs).1 = xs) := by
  constructor
  · intro h
    have e1 : (updateFilters dm cs l r).1.lowCut = bypassAllStages l.lowCut := by
      rw [(updateFilters_lowCut_eq dm cs l r).1, h, applyCoefficients_isOff]
    have e2 : (updateFilters dm cs l r).2.lowCut = bypassAllStages r.lowCut := by
      rw [(updateFilters_lowCut_eq dm cs l r).2, h, applyCoefficients_isOff]
    refine ⟨?_, ?_, ?_, ?_⟩
    · rw [e1]; exact allBypassed_bypassAllStages _
    · rw [e2]; exact allBypassed_bypassAllStages _
    · rw [e1, cutFilterProcessBlock_allBypassed _ _ _ (allBypassed_bypassAllStages _)]
    · rw [e2, cutFilterProcessBlock_allBypassed _ _ _ (allBypassed_bypassAllStages _)]
  · intro h
    have e1 : (updateFilters dm cs l r).1.highCut = bypassAllStages l.highCut := by
      rw [(updateFilters_highCut_eq dm cs l r).1, h, applyCoefficients_isOff]
    have e2 : (updateFilters dm cs l r).2.highCut = bypassAllStages r.highCut := by
      rw [(updateFilters_highCut_eq dm cs l r).2, h, applyCoefficients_isOff]
    refine ⟨?_, ?_, ?_, ?_⟩
    · rw [e1]; exact allBypassed_bypassAllStages _
    · rw [e2]; exact allBypassed_bypassAllStages _
    · rw [e1, cutFilterProcessBlock_allBypassed _ _ _ (allBypassed_bypassAllStages _)]
    · rw [e2, cutFilterProcessBlock_allBypassed _ _ _ (allBypassed_bypassAllStages _)]

/-- A design model over abstract coefficient tokens, for witnesses. -/
def demoDesign : DesignModel Nat :=
  { sampleRate := 48000, lowCutDesign := fun _ _ _ _ => 0,
    highCutDesign := fun _ _ _ _ => 0, makePeakFilter := fun _ _ _ _ => 0 }

/-- A concrete mono chain, for witnesses. -/
def demoMonoN : MonoChain Nat Unit :=
  ⟨demoCutN, demoStageN, demoStageN, demoStageN, demoStageN, demoStageN,
   demoCutN⟩

/-- A concrete per-sample recursion, for witnesses. -/
def demoStep : Nat → Unit → ℚ → ℚ × Unit := fun _ _ x => (x + 1, ())

/-- Settings with the low-cut knob at its 5 Hz default (inside the off
range `[0, 6)`) and the high-cut knob at its 22 kHz default (inside
`[21500, 22001)`). -/
def demoSettings : ChainSettings := { lowCutFreq := 5, highCutFreq := 22000 }

/-- C3 witness: at the default knob positions both cascades of both chains
are fully bypassed and pass a concrete block through unchanged. -/
theorem updateFilters_offRange_bypass_witness :
    allBypassed (updateFilters demoDesign demoSettings demoMonoN demoMonoN).1.lowCut ∧
    (cutFilterProcessBlock demoStep
      (updateFilters demoDesign demoSettings demoMonoN demoMonoN).1.lowCut [3]).1 = [3] ∧
    allBypassed (updateFilters demoDesign demoSettings demoMonoN demoMonoN).2.highCut ∧
    (cutFilterProcessBlock demoStep
      (updateFilters demoDesign demoSettings demoMonoN demoMonoN).2.highCut [3]).1 = [3] :=
  ⟨((updateFilters_offRange_bypass demoDesign demoStep demoSettings demoMonoN
      demoMonoN [3]).1 (by decide)).1,
   ((updateFilters_offRange_bypass demoDesign demoStep demoSettings demoMonoN
      demoMonoN [3]).1 (by decide)).2.2.1,
   ((updateFilters_offRange_bypass demoDesign demoStep demoSettings demoMonoN
      demoMonoN [3]).2 (by decide)).2.1,
   ((updateFilters_offRange_bypass demoDesign demoStep demoSettings demoMonoN
      demoMonoN [3]).2 (by decide)).2.2.2⟩

/-- C6.  `updateCoefficients(old, replacements)` overwrites only the
coefficient values of the stage: the delay-line state of the IIR recursion
and the bypass flag are left unchanged.  Moreover a whole-cascade
coefficient swap (`applyCoefficientsToCutFilter`, which performs
`updateCoefficients` on each activated stage) never touches any stage's
delay-line state. -/
theorem updateCoefficients_frame {α σ : Type} (old : Stage α σ)
    (replacements : α) (c : CutFilter α σ) (coeffs : Nat → α) (s : Slope)
    (isOff : Bool) :
    ((updateCoefficients old replacements).coefficients = replacements ∧
     (updateCoefficients old replacements).state = old.state ∧
     (updateCoefficients old replacements).bypassed = old.bypassed) ∧
    (∀ i : Fin 8,
      (stageAt (applyCoefficientsToCutFilter c coeffs s isOff) i).state =
        (stageAt c i).state) := by
  refine ⟨⟨rfl, rfl, rfl⟩, ?_⟩
  intro i
  rw [stageAt_applyCoefficients]
  by_cases h : isOff = true <;> by_cases h2 : (i : Nat) ≤ slopeNat s <;>
    simp [h, h2]

/-- Corresponding stages of two cascades carry the same bypass flag, and
the same coefficient values wherever active. -/
def cutStagesLinked {α σ : Type} (a b : CutFilter α σ) : Prop :=
  ∀ i : Fin 8, (stageAt a i).bypassed = (stageAt b i).bypassed ∧
    ((stageAt a i).bypassed = false →
      (stageAt a i).coefficients = (stageAt b i).coefficients)

lemma applyCoefficients_linked {α σ : Type} (a b : CutFilter α σ)
    (coeffs : Nat → α) (s : Slope) (isOff : Bool) :
    cutStagesLinked (applyCoefficientsToCutFilter a coeffs s isOff)
      (applyCoefficientsToCutFilter b coeffs s isOff) := by
  intro i
  rw [stageAt_applyCoefficients, stageAt_applyCoefficients]
  by_cases h : isOff = true
  · simp [h]
  · by_cases h2 : (i : Nat) ≤ slopeNat s <;> simp [h, h2]

/-- C5.  Within one `processBlock` call, `updateFilters` completes for both
chains before either chain processes a sample: the left and right chains it
produces are stereo-linked — corresponding cut-cascade stages carry equal
bypass flags and, where active, equal coefficient values, and corresponding
peak stages carry equal coefficient values — and the block is then processed
(channel 0 by the left chain, channel 1 by the right chain) using exactly
those updated chains. -/
theorem processBlock_stereo_linked {α σ : Type} (dm : DesignModel α)
    (step : α → σ → ℚ → ℚ × σ) (cs : ChainSettings)
    (st : ProcessorState α σ) (ch0 ch1 : List ℚ) :
    (cutStagesLinked
        (updateFilters dm cs st.leftChain st.rightChain).1.lowCut
        (updateFilters dm cs st.leftChain st.rightChain).2.lowCut ∧
     (updateFilters dm cs st.leftChain st.rightChain).1.peak1.coefficients =
        (updateFilters dm cs st.leftChain st.rightChain).2.peak1.coefficients ∧
     (updateFilters dm cs st.leftChain st.rightChain).1.peak2.coefficients =
        (updateFilters dm cs st.leftChain st.rightChain).2.peak2.coefficients ∧
     (updateFilters dm cs st.leftChain st.rightChain).1.peak3.coefficients =
        (updateFilters dm cs st.leftChain st.rightChain).2.peak3.coefficients ∧
     (updateFilters dm cs st.leftChain st.rightChain).1.peak4.coefficients =
        (updateFilters dm cs st.leftChain st.rightChain).2.peak4.coefficients ∧
     (updateFilters dm cs st.leftChain st.rightChain).1.peak5.coefficients =
        (updateFilters dm cs st.leftChain st.rightChain).2.peak5.coefficients ∧
     cutStagesLinked
        (updateFilters dm cs st.leftChain st.rightChain).1.highCut
        (updateFilters dm cs st.leftChain st.rightChain).2.highCut) ∧
    ((processBlock dm step cs st ch0 ch1).out0 =
        (monoChainProcessBlock step
          (updateFilters dm cs st.leftChain st.rightChain).1 ch0).1 ∧
     (processBlock dm step cs st ch0 ch1).out1 =
        (monoChainProcessBlock step
          (updateFilters dm cs st.leftChain st.rightChain).2 ch1).1 ∧
     (processBlock dm step cs st ch0 ch1).state.leftChain =
        (monoChainProcessBlock step
          (updateFilters dm cs st.leftChain st.rightChain).1 ch0).2 ∧
     (processBlock dm step cs st ch0 ch1).state.rightChain =
        (monoChainProcessBlock step
          (updateFilters dm cs st.leftChain st.rightChain).2 ch1).2) := by
  refine ⟨⟨?_, rfl, rfl, rfl, rfl, rfl, ?_⟩, rfl, rfl, rfl, rfl⟩
  · rw [(updateFilters_lowCut_eq dm cs st.leftChain st.rightChain).1,
      (updateFilters_lowCut_eq dm cs st.leftChain st.rightChain).2]
    exact applyCoefficients_linked _ _ _ _ _
  · rw [(updateFilters_highCut_eq dm cs st.leftChain st.rightChain).1,
      (updateFilters_highCut_eq dm cs st.leftChain st.rightChain).2]
    exact applyCoefficients_linked _ _ _ _ _

/-- A concrete processor state, for witnesses. -/
def demoState : ProcessorState Nat Unit :=
  ⟨demoMonoN, demoMonoN, scPrepare Channel.Left 1, scPrepare Channel.Right 1⟩

/-- C5 witness: a concrete instance — stage 0 of the two updated low-cut
cascades carries the same bypass flag, the two updated Peak1 stages carry
the same coefficients, and the block output comes from the updated chains. -/
theorem processBlock_stereo_linked_witness :
    (stageAt (updateFilters demoDesign demoSettings demoState.leftChain
        demoState.rightChain).1.lowCut 0).bypassed =
      (stageAt (updateFilters demoDesign demoSettings demoState.leftChain
        demoState.rightChain).2.lowCut 0).bypassed ∧
    (updateFilters demoDesign demoSettings demoState.leftChain
        demoState.rightChain).1.peak1.coefficients =
      (updateFilters demoDesign demoSettings demoState.leftChain
        demoState.rightChain).2.peak1.coefficients ∧
    (processBlock demoDesign demoStep demoSettings demoState [1] [2]).out0 =
      (monoChainProcessBlock demoStep (updateFilters demoDesign demoSettings
        demoState.leftChain demoState.rightChain).1 [1]).1 :=
  ⟨((processBlock_stereo_linked demoDesign demoStep demoSettings demoState
      [1] [2]).1.1 0).1,
   (processBlock_stereo_linked demoDesign demoStep demoSettings demoState
      [1] [2]).1.2.1,
   (processBlock_stereo_linked demoDesign demoStep demoSettings demoState
      [1] [2]).2.1⟩

/-! ### Claim C4 -/

/-- C4 (amended).  In every `processBlock` call the two Sample Collectors
are updated with the buffer as it stands *after* the in-place chain
processing: the samples they receive are the block's processed output
channels (`out0`, `out1`), not the raw input samples. -/
theorem processBlock_collectors_get_output {α σ : Type} (dm : DesignModel α)
    (step : α → σ → ℚ → ℚ × σ) (cs : ChainSettings)
    (st : ProcessorState α σ) (ch0 ch1 : List ℚ) :
    (processBlock dm step cs st ch0 ch1).state.leftChannelFifo =
      scUpdateBuffer st.leftChannelFifo
        [(processBlock dm step cs st ch0 ch1).out0,
         (processBlock dm step cs st ch0 ch1).out1] ∧
    (processBlock dm step cs st ch0 ch1).state.rightChannelFifo =
      scUpdateBuffer st.rightChannelFifo
        [(processBlock dm step cs st ch0 ch1).out0,
         (processBlock dm step cs st ch0 ch1).out1] :=
  ⟨rfl, rfl⟩

/-- A coefficient set whose section halves each sample (`y = x/2`). -/
def halfGainCoefficients : IIRCoefficients := ⟨1/2, 0, 0, 0, 0⟩

/-- A coefficient set whose section is the identity (`y = x`). -/
def identityCoefficients : IIRCoefficients := ⟨1, 0, 0, 0, 0⟩

/-- A concrete design-model instance over real biquad coefficients:
the low-cut design yields the halving section, the high-cut design and
the peak designer yield the identity section. -/
def demoDesignIIR : DesignModel IIRCoefficients :=
  { sampleRate := 48000,
    lowCutDesign := fun _ _ _ _ => halfGainCoefficients,
    highCutDesign := fun _ _ _ _ => identityCoefficients,
    makePeakFilter := fun _ _ _ _ => identityCoefficients }

/-- An identity stage with a zeroed delay line. -/
def demoStageIIR : Stage IIRCoefficients DelayState :=
  ⟨identityCoefficients, ⟨0, 0⟩, false⟩

/-- A cascade of identity stages. -/
def demoCutIIR : CutFilter IIRCoefficients DelayState :=
  ⟨demoStageIIR, demoStageIIR, demoStageIIR, demoStageIIR,
   demoStageIIR, demoStageIIR, demoStageIIR, demoStageIIR⟩

/-- A mono chain of identity stages with zeroed delay lines. -/
def demoMonoIIR : MonoChain IIRCoefficients DelayState :=
  ⟨demoCutIIR, demoStageIIR, demoStageIIR, demoStageIIR, demoStageIIR,
   demoStageIIR, demoCutIIR⟩

/-- A concrete processor state over real biquad arithmetic, with both
collectors prepared at block size 1. -/
def demoStateIIR : ProcessorState IIRCoefficients DelayState :=
  ⟨demoMonoIIR, demoMonoIIR, scPrepare Channel.Left 1,
   scPrepare Channel.Right 1⟩

/-- Settings where the low cut is on (100 Hz, slope 12) and the high cut
is off (22 kHz lies in the high-cut off range). -/
def demoSettingsIIR : ChainSettings := { lowCutFreq := 100, highCutFreq := 22000 }

set_option maxRecDepth 8192 in
/-- C4 counterexample.  A concrete `processBlock` call (low cut active with
a halving stage-0 section, everything else identity or bypassed, raw block
channel 0 = [2], channel 1 = [4], processed output [1] and [2]): the left
collector ends up holding the processed sample 2, whereas feeding the raw
input buffer would leave it holding 4 — the collectors receive the
filtered output, not the block's input samples, because
`leftChannelFifo.update(buffer)` runs after the chains processed `buffer`
in place. -/
theorem processBlock_taps_processed_not_raw :
    (processBlock demoDesignIIR biquadStep demoSettingsIIR demoStateIIR
        [2] [4]).state.leftChannelFifo.bufferToFill = [(2 : ℚ)] ∧
    (scUpdateBuffer demoStateIIR.leftChannelFifo
        [[2], [4]]).bufferToFill = [(4 : ℚ)] ∧
    (processBlock demoDesignIIR biquadStep demoSettingsIIR demoStateIIR
        [2] [4]).state.leftChannelFifo.bufferToFill ≠
      (scUpdateBuffer demoStateIIR.leftChannelFifo
        [[2], [4]]).bufferToFill := by
  have hlow : low_cut_off_range.containsV (100 : ℚ) = false := by decide
  have hhigh : high_cut_off_range.containsV (22000 : ℚ) = true := by decide
  have h1 : (processBlock demoDesignIIR biquadStep demoSettingsIIR
      demoStateIIR [2] [4]).state.leftChannelFifo.bufferToFill = [(2 : ℚ)] := by
    simp only [processBlock, updateFilters, updateCutFilterLowCut,
      updateCutFilterHighCut, updatePeakFilter, makeCutFilterWith,
      demoSettingsIIR, demoDesignIIR, demoStateIIR, demoMonoIIR, demoCutIIR,
      demoStageIIR, halfGainCoefficients, identityCoefficients, hlow, hhigh]
    simp [applyCoefficientsToCutFilter, bypassAllStages, update0,
      updateCoefficients, monoChainProcessBlock, cutFilterProcessBlock,
      stageProcessBlock, processSamples, biquadStep, scUpdateBuffer, scUpdate,
      pushNextSampleIntoFifo, scPrepare, channelIndex, List.set]
    norm_num
  have h2 : (scUpdateBuffer demoStateIIR.leftChannelFifo
      [[2], [4]]).bufferToFill = [(4 : ℚ)] := by decide
  refine ⟨h1, h2, ?_⟩
  rw [h1, h2]
  decide

/-! ### Claims C9, C10 -/

/-- Overwrite consecutive positions `k, k+1, ...` of a list with the
elements of another list (the footprint of a run of cursor writes into the
accumulation buffer). -/
def listWriteRun (l : List ℚ) (k : Nat) : List ℚ → List ℚ
  | [] => l
  | x :: xs => listWriteRun (l.set k x) (k + 1) xs

lemma take_set_succ (l : List ℚ) (k : Nat) (x : ℚ) (h : k < l.length) :
    (l.set k x).take (k + 1) = l.take k ++ [x] := by
  induction l generalizing k with
  | nil => simp at h
  | cons a l ih =>
    cases k with
    | zero => simp
    | succ k =>
      simp only [List.set_cons_succ, List.take_succ_cons, List.cons_append]
      rw [ih k (by simpa using h)]

lemma listWriteRun_full (xs : List ℚ) (k : Nat) (l : List ℚ)
    (h : l.length = k + xs.length) :
    listWriteRun l k xs = l.take k ++ xs := by
  induction xs generalizing k l with
  | nil =>
    have hk : k = l.length := by simpa using h.symm
    simp [listWriteRun, hk]
  | cons x xs ih =>
    simp only [List.length_cons] at h
    have hk : k < l.length := by omega
    rw [listWriteRun, ih (k + 1) (l.set k x) (by simp; omega),
      take_set_succ l k x hk]
    simp

lemma scUpdate_fill (xs : List ℚ) (s : SingleChannelSampleFifo)
    (h : s.fifoIndex + xs.length ≤ s.bufferToFill.length) :
    scUpdate s xs =
      { s with bufferToFill := listWriteRun s.bufferToFill s.fifoIndex xs,
               fifoIndex := s.fifoIndex + xs.length } := by
  induction xs generalizing s with
  | nil => simp [scUpdate, listWriteRun]
  | cons x xs ih =>
    simp only [List.length_cons] at h
    have hne : ¬ (s.fifoIndex = s.bufferToFill.length) := by omega
    have hstep : pushNextSampleIntoFifo s x =
        { s with bufferToFill := s.bufferToFill.set s.fifoIndex x,
                 fifoIndex := s.fifoIndex + 1 } := by
      simp [pushNextSampleIntoFifo, hne]
    have hfold : scUpdate s (x :: xs) =
        scUpdate (pushNextSampleIntoFifo s x) xs := rfl
    rw [hfold, hstep, ih _ (by simp [List.length_set]; omega)]
    have harith : s.fifoIndex + 1 + xs.length = s.fifoIndex + (xs.length + 1) := by
      omega
    rw [harith]
    simp [listWriteRun]

/-- C9 (amended).  For a `SingleChannelSampleFifo` prepared with block size
`B ≥ 1` and a stream of exactly `B` samples, `update` copies every sample,
one at a time, into the accumulation buffer (which afterwards holds exactly
the stream, with the write cursor at `B`), but the completed block is *not*
pushed yet: the push happens at the arrival of the next sample, at which
point the cursor resets to 0, the complete `B`-sample block becomes
available in the internal Fifo, and the new sample is stored at index 0
(cursor 1). -/
theorem scFifo_deferred_push (B : Nat) (ch : Channel) (xs : List ℚ) (y : ℚ)
    (d : List ℚ) (hB : 1 ≤ B) (hlen : xs.length = B) :
    (scUpdate (scPrepare ch B) xs).fifoIndex = B ∧
    (scUpdate (scPrepare ch B) xs).bufferToFill = xs ∧
    getNumCompleteBuffersAvailable (scUpdate (scPrepare ch B) xs) = 0 ∧
    (scUpdate (scUpdate (scPrepare ch B) xs) [y]).fifoIndex = 1 ∧
    getNumCompleteBuffersAvailable
      (scUpdate (scUpdate (scPrepare ch B) xs) [y]) = 1 ∧
    (getAudioBuffer (scUpdate (scUpdate (scPrepare ch B) xs) [y]) d).2.1 = xs := by
  have hfull : listWriteRun (List.replicate B (0 : ℚ)) 0 xs = xs := by
    have h2 := listWriteRun_full xs 0 (List.replicate B 0) (by simp [hlen])
    simpa using h2
  have h0 : scUpdate (scPrepare ch B) xs =
      (⟨ch, B, Fifo.fresh (List.replicate B 0), xs⟩ :
        SingleChannelSampleFifo) := by
    rw [scUpdate_fill xs (scPrepare ch B) (by simp [scPrepare, hlen])]
    simp [scPrepare, hfull, hlen]
  have hpush : scUpdate
      (⟨ch, B, Fifo.fresh (List.replicate B 0), xs⟩ :
        SingleChannelSampleFifo) [y] =
      (⟨ch, 1, ⟨0, 1, fun i => if i = 0 then xs else List.replicate B 0⟩,
        xs.set 0 y⟩ : SingleChannelSampleFifo) := by
    have hcond : B = xs.length := hlen.symm
    simp [scUpdate, pushNextSampleIntoFifo, ← hcond, Fifo.push, Fifo.fresh,
      Fifo.freeSpace, fifoCapacity]
  rw [h0, hpush]
  refine ⟨rfl, rfl, ?_, rfl, ?_, ?_⟩
  · simp [getNumCompleteBuffersAvailable, Fifo.numReady, Fifo.fresh]
  · simp [getNumCompleteBuffersAvailable, Fifo.numReady]
  · simp [getAudioBuffer, Fifo.pull, Fifo.numReady]

/-- C9 witness: block size 2, stream [3, 4], extra sample 5. -/
theorem scFifo_deferred_push_witness :
    (scUpdate (scPrepare Channel.Left 2) [3, 4]).fifoIndex = 2 ∧
    (scUpdate (scPrepare Channel.Left 2) [3, 4]).bufferToFill = [3, 4] ∧
    getNumCompleteBuffersAvailable
      (scUpdate (scPrepare Channel.Left 2) [3, 4]) = 0 ∧
    (scUpdate (scUpdate (scPrepare Channel.Left 2) [3, 4]) [5]).fifoIndex = 1 ∧
    getNumCompleteBuffersAvailable
      (scUpdate (scUpdate (scPrepare Channel.Left 2) [3, 4]) [5]) = 1 ∧
    (getAudioBuffer
      (scUpdate (scUpdate (scPrepare Channel.Left 2) [3, 4]) [5]) []).2.1 = [3, 4] :=
  scFifo_deferred_push 2 Channel.Left [3, 4] 5 [] (by decide) (by decide)

/-- C9 counterexample.  With block size 2, after exactly the 2 samples
[1, 2] the accumulation buffer has filled but no complete block is
available in the Fifo — the push is deferred; it happens only when the
third sample arrives.  The claim as stated ("pushed immediately upon
accumulating each B-th sample") predicts 1 available block after two
samples. -/
theorem scFifo_no_push_at_fill :
    getNumCompleteBuffersAvailable
      (scUpdate (scPrepare Channel.Left 2) [1, 2]) = 0 ∧
    getNumCompleteBuffersAvailable
      (scUpdate (scPrepare Channel.Left 2) [1, 2, 3]) = 1 := by
  decide

/-- C10.  The `Channel` enum orders `Right = 0`, `Left = 1`; consequently,
on a buffer with at least two channels, a collector constructed with
`Channel::Left` reads channel index 1 of the buffer in `update`, and one
constructed with `Channel::Right` reads channel index 0. -/
theorem channel_enum_selection (buffer : List (List ℚ))
    (s : SingleChannelSampleFifo) (h2 : 2 ≤ buffer.length) :
    channelIndex Channel.Right = 0 ∧ channelIndex Channel.Left = 1 ∧
    (s.channelToUse = Channel.Left →
      scUpdateBuffer s buffer = scUpdate s (buffer.get ⟨1, by omega⟩)) ∧
    (s.channelToUse = Channel.Right →
      scUpdateBuffer s buffer = scUpdate s (buffer.get ⟨0, by omega⟩)) := by
  refine ⟨rfl, rfl, ?_, ?_⟩
  · intro hL
    rw [scUpdateBuffer, hL]
    show scUpdate s (buffer.getD 1 []) = _
    rw [List.getD_eq_get buffer [] (by omega)]
  · intro hR
    rw [scUpdateBuffer, hR]
    show scUpdate s (buffer.getD 0 []) = _
    rw [List.getD_eq_get buffer [] (by omega)]

/-- C10 witness: on the concrete two-channel buffer [[1], [2]], the
Left-channel collector consumes channel 1 and the Right-channel collector
consumes channel 0. -/
theorem channel_enum_selection_witness :
    scUpdateBuffer (scPrepare Channel.Left 1) [[1], [2]] =
      scUpdate (scPrepare Channel.Left 1) [2] ∧
    scUpdateBuffer (scPrepare Channel.Right 1) [[1], [2]] =
      scUpdate (scPrepare Channel.Right 1) [1] :=
  ⟨(channel_enum_selection [[1], [2]] (scPrepare Channel.Left 1)
      (by decide)).2.2.1 rfl,
   (channel_enum_selection [[1], [2]] (scPrepare Channel.Right 1)
      (by decide)).2.2.2 rfl⟩

end SimpleEQ
